import Mathlib

/-
Verification development for the SmartPatrol patrol-management backend.

The definitions below are a shallow embedding of the route-assignment
state machine and checkpoint-scan verifier found in
`controllers/routeAssignmentController.js` and
`controllers/checkpointController.js`, over the Sequelize models
`RouteAssignment`, `Route`, `Checkpoint`, `CheckpointScan`, `User`.

The persistence layer is modelled as in-memory lists of rows; `findOne`
and `findByPk` become `List.find?`, a Sequelize `update` on a row found
by primary key becomes a map that replaces the rows carrying that id.
Coordinates are rationals (every decimal string parsed by the JS code is
rational); the Haversine computation itself is carried out in ℝ,
idealising IEEE doubles by real arithmetic.
-/

namespace SmartPatrol

/-- RouteAssignment.status enum: 'assigned' | 'in_progress' | 'completed' | 'cancelled'. -/
inductive Status where
  | assigned
  | in_progress
  | completed
  | cancelled
deriving DecidableEq

/-- One row of the Checkpoint table (fields the controllers read).
`lat_long` is stored as "lat,lng" in the DB and parsed on access, so it is
modelled directly as the pair of rationals.  `scanRadius` is `Option Nat`:
`none` models SQL NULL, and the JS fallback `scanRadius || 50` also treats
a stored 0 as absent. -/
structure Checkpoint where
  id : Nat
  qrCode : String
  lat : ℚ
  lng : ℚ
  scanRadius : Option Nat
  isActive : Bool
deriving DecidableEq

/-- One row of the Route table. -/
structure Route where
  id : Nat
  checkpoints : List Nat
  isActive : Bool
deriving DecidableEq

/-- One row of the User table. -/
structure User where
  id : Nat
  username : String
deriving DecidableEq

/-- One row of the RouteAssignment table. -/
structure Assignment where
  id : Nat
  userId : Nat
  routeId : Nat
  policeStationId : Option Nat
  startDate : Option Nat
  endDate : Option Nat
  status : Status
  completedCheckpoints : List Nat
  notes : String
  isActive : Bool
deriving DecidableEq

/-- One row of the CheckpointScan audit table (the fields the scan flow writes). -/
structure ScanRow where
  userId : Nat
  checkpointId : Nat
  routeAssignmentId : Nat
  userLatLong : ℚ × ℚ
  distance : ℤ
  notes : Option String
  isValid : Bool
deriving DecidableEq

/-- The whole database reachable from the controllers, plus the clock:
calls to `new Date()` inside one request are modelled by the single
timestamp `now`. -/
structure DB where
  users : List User
  checkpoints : List Checkpoint
  routes : List Route
  assignments : List Assignment
  scans : List ScanRow
  now : Nat
deriving DecidableEq

/-- `validateLatLong` (checkpointController.js): the parsed pair must satisfy
−90 ≤ lat ≤ 90 and −180 ≤ lng ≤ 180.  A request whose string did not parse
into two numbers is modelled as `none` upstream. -/
def validLatLng (p : ℚ × ℚ) : Bool :=
  decide (-90 ≤ p.1) && decide (p.1 ≤ 90) && decide (-180 ≤ p.2) && decide (p.2 ≤ 180)

/-- `checkpoint.scanRadius || 50`: NULL and 0 are both falsy in JS, so either
one falls back to 50 meters. -/
def effectiveScanRadius (c : Checkpoint) : Nat :=
  match c.scanRadius with
  | none => 50
  | some r => if r = 0 then 50 else r

/-- `status: { [Op.in]: ['assigned', 'in_progress'] }` — the statuses that make
an assignment "active" for conflict checks. -/
def isActiveStatus (s : Status) : Bool :=
  decide (s = Status.assigned) || decide (s = Status.in_progress)

/-- Replace every assignment row carrying primary key `i` by `a'`
(Sequelize `assignment.update` on the row found by that key). -/
def updateById (l : List Assignment) (i : Nat) (a' : Assignment) : List Assignment :=
  l.map (fun x => if x.id = i then a' else x)

/-- Predicate of the `RouteAssignment.findOne` in `scanQRCode`:
`{ id: assignmentId, userId, isActive: true, status: 'in_progress' }`. -/
def scanAsgPred (aid uid : Nat) (a : Assignment) : Bool :=
  decide (a.id = aid) && decide (a.userId = uid) && a.isActive && decide (a.status = Status.in_progress)

/-- Predicate of the `Checkpoint.findOne` in `scanQRCode`:
`{ qrCode: qrInfo.id, isActive: true }`. -/
def cpPred (qid : String) (c : Checkpoint) : Bool :=
  decide (c.qrCode = qid) && c.isActive

/-- Predicate of RULE 1 in `assignRoute`: any active assignment holding the route. -/
def routeConflictPred (rid : Nat) (a : Assignment) : Bool :=
  decide (a.routeId = rid) && a.isActive && isActiveStatus a.status

/-- Predicate of RULE 2 in `assignRoute`: an active assignment of this exact (user, route) pair. -/
def userRoutePred (uid rid : Nat) (a : Assignment) : Bool :=
  decide (a.userId = uid) && decide (a.routeId = rid) && a.isActive && isActiveStatus a.status

/-- Predicate of RULE 3 in `assignRoute`: the user's active assignments. -/
def userActivePred (uid : Nat) (a : Assignment) : Bool :=
  decide (a.userId = uid) && a.isActive && isActiveStatus a.status

/-- Outcome of `assignRoute`. -/
inductive AssignOutcome where
  | userNotFound
  | routeNotFound
  | routeInactive
  | routeAlreadyAssigned (assignmentId holderId : Nat) (holderStatus : Status)
  | duplicateUserRoute (assignmentId : Nat)
  | maxRoutesReached (current : Nat)
  | created (assignmentId : Nat)
  | serverError
deriving DecidableEq

/-- Fresh primary key for a created row (auto-increment). -/
def freshId (l : List Assignment) : Nat :=
  l.foldr (fun a m => max m a.id) 0 + 1

/-- `assignRoute` (routeAssignmentController.js): lookups of user and route,
RULE 1 (route held by any active assignment), RULE 2 (same user+route),
RULE 3 (per-user cap of 5), then create with status 'assigned',
startDate = now, empty completedCheckpoints.  Accessing the holder of a
RULE 1 conflict whose user row is missing throws in JS (500), modelled as
`serverError`. -/
def assignRoute (db : DB) (userId routeId : Nat) (policeStationId : Option Nat) :
    AssignOutcome × DB :=
  match db.users.find? (fun u => decide (u.id = userId)) with
  | none => (.userNotFound, db)
  | some _ =>
    match db.routes.find? (fun r => decide (r.id = routeId)) with
    | none => (.routeNotFound, db)
    | some route =>
      if route.isActive then
        match db.assignments.find? (routeConflictPred routeId) with
        | some existing =>
          match db.users.find? (fun u => decide (u.id = existing.userId)) with
          | none => (.serverError, db)
          | some _ => (.routeAlreadyAssigned existing.id existing.userId existing.status, db)
        | none =>
          match db.assignments.find? (userRoutePred userId routeId) with
          | some conflict => (.duplicateUserRoute conflict.id, db)
          | none =>
            let active := db.assignments.filter (userActivePred userId)
            if 5 ≤ active.length then (.maxRoutesReached active.length, db)
            else
              let asg : Assignment :=
                { id := freshId db.assignments
                  userId := userId
                  routeId := routeId
                  policeStationId := policeStationId
                  startDate := some db.now
                  endDate := none
                  status := Status.assigned
                  completedCheckpoints := []
                  notes := "Route assigned"
                  isActive := true }
              (.created asg.id, { db with assignments := db.assignments ++ [asg] })
      else (.routeInactive, db)

/-- Outcome of `startRoute`.  The controller answers wrong-status and
missing-row with the same 404 ("Assignment not found or not in assigned
status"); that shared failure is the surface of the spec's
InvalidStateTransition on this operation. -/
inductive StartOutcome where
  | notFoundOrNotAssigned
  | started
deriving DecidableEq

/-- `startRoute`: `findOne { id, isActive: true, status: 'assigned' }`, then
update to in_progress with startDate = now (overwriting the assignment-time
value) and fresh notes. -/
def startRoute (db : DB) (i : Nat) (notes : Option String) : StartOutcome × DB :=
  match db.assignments.find?
      (fun a => decide (a.id = i) && a.isActive && decide (a.status = Status.assigned)) with
  | none => (.notFoundOrNotAssigned, db)
  | some asg =>
    let asg' := { asg with
      status := Status.in_progress
      startDate := some db.now
      notes := notes.getD "Route started" }
    (.started, { db with assignments := updateById db.assignments asg.id asg' })

/-- Outcome of `completeRoute`. -/
inductive CompleteOutcome where
  | notFound
  | alreadyCompleted
  | incompleteCheckpoints (total done remaining : Nat)
  | routeCompleted (forced : Bool)
deriving DecidableEq

/-- `completeRoute`: `findOne { id, isActive: true }`; AlreadyCompleted guard;
`route?.checkpoints?.length || 0` vs `completedCheckpoints?.length || 0`
with the forceComplete override; on success status := completed,
endDate := now. -/
def completeRoute (db : DB) (i : Nat) (forceComplete : Bool) (notes : Option String) :
    CompleteOutcome × DB :=
  match db.assignments.find? (fun a => decide (a.id = i) && a.isActive) with
  | none => (.notFound, db)
  | some asg =>
    if asg.status = Status.completed then (.alreadyCompleted, db)
    else
      let total := ((db.routes.find? (fun r => decide (r.id = asg.routeId))).map
        (fun r => r.checkpoints.length)).getD 0
      let done := asg.completedCheckpoints.length
      if done < total ∧ forceComplete = false then
        (.incompleteCheckpoints total done (total - done), db)
      else
        let asg' := { asg with
          status := Status.completed
          endDate := some db.now
          notes := notes.getD "Route completed" }
        (.routeCompleted forceComplete, { db with assignments := updateById db.assignments asg.id asg' })

/-- Outcome of `cancelAssignment`. -/
inductive CancelOutcome where
  | notFound
  | invalidState (current : Status)
  | cancelledOk
deriving DecidableEq

/-- `cancelAssignment`: `findByPk`, isActive guard, status must be in
{assigned, in_progress}, then status := cancelled, endDate := now. -/
def cancelAssignment (db : DB) (i : Nat) (notes reason : Option String) :
    CancelOutcome × DB :=
  match db.assignments.find? (fun a => decide (a.id = i)) with
  | none => (.notFound, db)
  | some asg =>
    if asg.isActive then
      if isActiveStatus asg.status then
        let asg' := { asg with
          status := Status.cancelled
          endDate := some db.now
          notes := notes.getD ("Assignment cancelled. Reason: " ++ reason.getD "No reason provided") }
        (.cancelledOk, { db with assignments := updateById db.assignments asg.id asg' })
      else (.invalidState asg.status, db)
    else (.notFound, db)

/-- The body of an `updateAssignment` request: a JSON object whose keys may be
absent.  `some v` models a present key. -/
structure UpdatePayload where
  startDate : Option Nat
  endDate : Option Nat
  notes : Option String
  status : Option Status
  routeId : Option Nat
  userId : Option Nat
deriving DecidableEq

/-- Outcome of `updateAssignment`. -/
inductive UpdateOutcome where
  | notFound
  | routeAlreadyAssigned
  | updated
deriving DecidableEq

/-- `updateAssignment`: `findByPk` + isActive guard; if the payload carries a
routeId or userId and the new routeId differs, a conflict check against other
active assignments of that route; then the update is applied restricted to
`allowedFields = ['startDate', 'endDate', 'notes', 'status']`. -/
def updateAssignment (db : DB) (i : Nat) (p : UpdatePayload) : UpdateOutcome × DB :=
  match db.assignments.find? (fun a => decide (a.id = i)) with
  | none => (.notFound, db)
  | some asg =>
    if asg.isActive then
      let newRouteId := p.routeId.getD asg.routeId
      if (p.routeId.isSome || p.userId.isSome) ∧ newRouteId ≠ asg.routeId ∧
          (db.assignments.any (fun a =>
            decide (a.routeId = newRouteId) && a.isActive && isActiveStatus a.status &&
            decide (a.id ≠ i))) then
        (.routeAlreadyAssigned, db)
      else
        let asg' := { asg with
          startDate := match p.startDate with | some v => some v | none => asg.startDate
          endDate := match p.endDate with | some v => some v | none => asg.endDate
          notes := p.notes.getD asg.notes
          status := p.status.getD asg.status }
        (.updated, { db with assignments := updateById db.assignments asg.id asg' })
    else (.notFound, db)

open Classical in
/-- JS `Math.atan2 y x` on finite inputs (the quadrant-aware arctangent;
`atan2 0 0 = 0` as in JS). -/
noncomputable def atan2 (y x : ℝ) : ℝ :=
  if 0 < x then Real.arctan (y / x)
  else if x < 0 then
    (if 0 ≤ y then Real.arctan (y / x) + Real.pi else Real.arctan (y / x) - Real.pi)
  else if 0 < y then Real.pi / 2
  else if y < 0 then -(Real.pi / 2)
  else 0

/-- The intermediate value `a` of the inline Haversine computation of
`scanQRCode`, with φ1 = lat1·π/180, φ2 = lat2·π/180, Δφ = (lat2−lat1)·π/180,
Δλ = (lng2−lng1)·π/180:
`a = sin(Δφ/2)·sin(Δφ/2) + cos φ1 · cos φ2 · sin(Δλ/2)·sin(Δλ/2)`. -/
noncomputable def havA (lat1 lng1 lat2 lng2 : ℝ) : ℝ :=
  Real.sin ((lat2 - lat1) * Real.pi / 180 / 2) * Real.sin ((lat2 - lat1) * Real.pi / 180 / 2) +
    Real.cos (lat1 * Real.pi / 180) * Real.cos (lat2 * Real.pi / 180) *
      Real.sin ((lng2 - lng1) * Real.pi / 180 / 2) * Real.sin ((lng2 - lng1) * Real.pi / 180 / 2)

/-- The inline Haversine computation of `scanQRCode`:
R = 6371e3, c = 2·atan2(√a, √(1−a)), distance = R·c. -/
noncomputable def haversineDistance (lat1 lng1 lat2 lng2 : ℝ) : ℝ :=
  6371000 *
    (2 * atan2 (Real.sqrt (havA lat1 lng1 lat2 lng2)) (Real.sqrt (1 - havA lat1 lng1 lat2 lng2)))

/-- JS `Math.round` on a non-negative finite double: round half up. -/
noncomputable def roundJS (x : ℝ) : ℤ := ⌊x + 1 / 2⌋

/-- The `updateData` block of a successful `scanQRCode`: append the scanned
checkpoint, auto-complete when the new completed count equals the route's
checkpoint count (setting endDate and notes), else stay in_progress. -/
def scanStep (now : Nat) (asg : Assignment) (c : Checkpoint) (route : Route) : Assignment :=
  let newCC := asg.completedCheckpoints ++ [c.id]
  { asg with
    completedCheckpoints := newCC
    status := if newCC.length = route.checkpoints.length then Status.completed else Status.in_progress
    endDate := if newCC.length = route.checkpoints.length then some now else asg.endDate
    notes := if newCC.length = route.checkpoints.length then "Route completed" else asg.notes }

/-- The decoded QR payload: `JSON.parse(qrData)` succeeded and these are its
`id` and `type` members (absent members are `none`). -/
structure QRInfo where
  id : Option String
  ty : Option String
deriving DecidableEq

/-- One scan request: `qrData = none` models a string `JSON.parse` rejects,
`userLatLong = none` a string that does not parse into two finite numbers.
`hasMedia`/`mediaUploadOk` model attached files and the outcome of the S3
upload of the batch. -/
structure ScanRequest where
  userId : Nat
  qrData : Option QRInfo
  userLatLong : Option (ℚ × ℚ)
  assignmentId : Nat
  notes : Option String
  hasMedia : Bool
  mediaUploadOk : Bool
deriving DecidableEq

/-- Outcome of `scanQRCode`, one constructor per terminal response of the
controller.  `outOfRange` carries the reported rounded distance and the
required radius; `ok` carries the resulting status and progress counts. -/
inductive ScanOutcome where
  | invalidPosition
  | malformedQR
  | checkpointNotFound
  | outOfRange (distance : ℤ) (requiredRadius : Nat)
  | noActiveAssignment
  | routeNotFound
  | checkpointNotInRoute
  | alreadyScanned
  | mediaUploadFailed
  | ok (resulting : Status) (done total : Nat)
deriving DecidableEq

/-- Whether a scan outcome is one of the failure responses. -/
def isScanError : ScanOutcome → Bool
  | .ok _ _ _ => false
  | _ => true

open Classical in
/-- `scanQRCode` (checkpointController.js): position validation, QR decode and
structure check, checkpoint lookup by qrCode, Haversine geofence check
against `scanRadius || 50`, in_progress assignment lookup, route lookup,
route-membership check, already-scanned check, media upload, CheckpointScan
append, then the append to completedCheckpoints with auto-completion when the
new length equals the route's checkpoint count. -/
noncomputable def scanQRCode (db : DB) (req : ScanRequest) : ScanOutcome × DB :=
  match req.userLatLong with
  | none => (.invalidPosition, db)
  | some pos =>
    if validLatLng pos then
      match req.qrData with
      | none => (.malformedQR, db)
      | some qr =>
        match qr.id, qr.ty with
        | some qid, some t =>
          if t = "checkpoint" then
            match db.checkpoints.find? (cpPred qid) with
            | none => (.checkpointNotFound, db)
            | some cp =>
              let dist := haversineDistance (pos.1 : ℝ) (pos.2 : ℝ) (cp.lat : ℝ) (cp.lng : ℝ)
              let radius := effectiveScanRadius cp
              if dist ≤ (radius : ℝ) then
                match db.assignments.find? (scanAsgPred req.assignmentId req.userId) with
                | none => (.noActiveAssignment, db)
                | some asg =>
                  match db.routes.find? (fun r => decide (r.id = asg.routeId)) with
                  | none => (.routeNotFound, db)
                  | some route =>
                    if cp.id ∈ route.checkpoints then
                      if cp.id ∈ asg.completedCheckpoints then (.alreadyScanned, db)
                      else if req.hasMedia ∧ req.mediaUploadOk = false then
                        (.mediaUploadFailed, db)
                      else
                        let row : ScanRow :=
                          { userId := req.userId
                            checkpointId := cp.id
                            routeAssignmentId := req.assignmentId
                            userLatLong := pos
                            distance := roundJS dist
                            notes := req.notes
                            isValid := true }
                        let asg' := scanStep db.now asg cp route
                        (.ok asg'.status asg'.completedCheckpoints.length route.checkpoints.length,
                          { db with
                            scans := db.scans ++ [row]
                            assignments := updateById db.assignments asg.id asg' })
                    else (.checkpointNotInRoute, db)
              else (.outOfRange (roundJS dist) radius, db)
          else (.malformedQR, db)
        | _, _ => (.malformedQR, db)
    else (.invalidPosition, db)

/-- The scan request the mobile client issues for checkpoint `c` when the
officer stands exactly at the checkpoint's geofence center. -/
def mkScanRequest (uid aid : Nat) (c : Checkpoint) : ScanRequest :=
  { userId := uid
    qrData := some { id := some c.qrCode, ty := some "checkpoint" }
    userLatLong := some (c.lat, c.lng)
    assignmentId := aid
    notes := none
    hasMedia := false
    mediaUploadOk := true }

/-- Run a sequence of scan requests, threading the database. -/
noncomputable def runScans (db : DB) (reqs : List ScanRequest) : DB :=
  reqs.foldl (fun d r => (scanQRCode d r).2) db

/-- Look an assignment up by primary key. -/
def getById (db : DB) (i : Nat) : Option Assignment :=
  db.assignments.find? (fun a => decide (a.id = i))

/-- The forward moves of the assignment lifecycle: stay put, leave `assigned`,
or close an `in_progress` assignment; `completed` and `cancelled` admit no
move at all. -/
def statusForward (s t : Status) : Prop :=
  s = t ∨ (s = Status.assigned ∧ t ≠ Status.assigned) ∨
    (s = Status.in_progress ∧ (t = Status.completed ∨ t = Status.cancelled))

/-- The check phase of `assignRoute`: all the reads `assignRoute` awaits
before its `RouteAssignment.create` — user lookup, route lookup with the
isActive test, RULE 1, RULE 2 and RULE 3.  The controller wraps none of this
in a transaction, so under concurrent requests both calls' check phases can
run against the same snapshot before either create executes. -/
def assignChecksPass (db : DB) (userId routeId : Nat) : Bool :=
  (db.users.find? (fun u => decide (u.id = userId))).isSome &&
  (match db.routes.find? (fun r => decide (r.id = routeId)) with
    | none => false
    | some route => route.isActive) &&
  (db.assignments.find? (routeConflictPred routeId)).isNone &&
  (db.assignments.find? (userRoutePred userId routeId)).isNone &&
  decide ((db.assignments.filter (userActivePred userId)).length < 5)

/-- The create phase of `assignRoute`: the `RouteAssignment.create` call. -/
def assignCreate (db : DB) (userId routeId : Nat) (policeStationId : Option Nat) : DB :=
  { db with assignments := db.assignments ++
      [{ id := freshId db.assignments
         userId := userId
         routeId := routeId
         policeStationId := policeStationId
         startDate := some db.now
         endDate := none
         status := Status.assigned
         completedCheckpoints := []
         notes := "Route assigned"
         isActive := true }] }

/-- Fixture checkpoint at the origin with qrCode "QA". -/
def wCp1 : Checkpoint := ⟨1, "QA", 0, 0, some 100, true⟩

/-- Fixture checkpoint at the origin with qrCode "QB". -/
def wCp2 : Checkpoint := ⟨2, "QB", 0, 0, some 100, true⟩

/-- Fixture checkpoint at the origin with qrCode "QC". -/
def wCp3 : Checkpoint := ⟨3, "QC", 0, 0, some 100, true⟩

/-- Fixture route over the three fixture checkpoints. -/
def wRoute : Route := ⟨10, [1, 2, 3], true⟩

/-- Fixture in_progress assignment of the fixture route with nothing scanned. -/
def wAsg : Assignment := ⟨100, 7, 10, none, some 0, none, Status.in_progress, [], "", true⟩

/-- Fixture database: the fixture route assigned (in progress) to user 7. -/
def wDb1 : DB := ⟨[], [wCp1, wCp2, wCp3], [wRoute], [wAsg], [], 5⟩

/-- Fixture in_progress assignment that has already scanned checkpoint 1. -/
def wAsgDone1 : Assignment := ⟨100, 7, 10, none, some 0, none, Status.in_progress, [1], "", true⟩

/-- Fixture database where checkpoint 1 is already scanned. -/
def wDb2 : DB := ⟨[], [wCp1, wCp2, wCp3], [wRoute], [wAsgDone1], [], 5⟩

/-- Fixture completed assignment (all three checkpoints scanned). -/
def wAsgCompleted : Assignment :=
  ⟨1, 7, 10, none, some 0, some 3, Status.completed, [1, 2, 3], "", true⟩

/-- Fixture database holding the completed assignment. -/
def wDb3 : DB := ⟨[], [], [wRoute], [wAsgCompleted], [], 9⟩

/-- An update payload carrying only `status: 'assigned'`. -/
def wPayloadAssigned : UpdatePayload := ⟨none, none, none, some Status.assigned, none, none⟩

/-- Fixture user 1. -/
def wUser1 : User := ⟨1, "officer1"⟩

/-- Fixture user 2. -/
def wUser2 : User := ⟨2, "officer2"⟩

/-- Fixture route 2 over checkpoint 1. -/
def wRoute2 : Route := ⟨2, [1], true⟩

/-- Fixture: user 1 already actively holds route 2 (assignment 3). -/
def wAsgHeld : Assignment := ⟨3, 1, 2, none, some 0, none, Status.assigned, [], "", true⟩

/-- Fixture database where the requesting user already holds the route. -/
def wDb5 : DB := ⟨[wUser1], [wCp1], [wRoute2], [wAsgHeld], [], 4⟩

/-- Fixture in_progress assignment with 2 of 3 checkpoints scanned. -/
def wAsgTwoDone : Assignment := ⟨100, 7, 10, none, some 0, none, Status.in_progress, [1, 2], "", true⟩

/-- Fixture database for the completeRoute claims. -/
def wDb6 : DB := ⟨[], [], [wRoute], [wAsgTwoDone], [], 5⟩

/-- Fixture assignment still in status assigned. -/
def wAsgAssigned : Assignment := ⟨100, 7, 10, none, some 0, none, Status.assigned, [], "", true⟩

/-- Fixture database for the startRoute claims. -/
def wDb7 : DB := ⟨[], [], [wRoute], [wAsgAssigned], [], 5⟩

/-- Fixture database with two users, route 7 free, no assignments. -/
def wDb9 : DB := ⟨[wUser1, wUser2], [wCp1], [⟨7, [1], true⟩], [], [], 4⟩

lemma arctan_nonneg_of_nonneg {x : ℝ} (h : 0 ≤ x) : 0 ≤ Real.arctan x := by
  have h2 := Real.arctan_strictMono.monotone h
  rwa [Real.arctan_zero] at h2

lemma atan2_nonneg {y x : ℝ} (hy : 0 ≤ y) (hx : 0 ≤ x) : 0 ≤ atan2 y x := by
  unfold atan2
  split_ifs with h1 h2 h3 h4 <;>
    first
      | exact arctan_nonneg_of_nonneg (div_nonneg hy h1.le)
      | linarith [Real.pi_pos]

lemma atan2_zero_one : atan2 0 1 = 0 := by
  unfold atan2
  rw [if_pos one_pos]
  norm_num [Real.arctan_zero]

lemma havA_self (lat lng : ℝ) : havA lat lng lat lng = 0 := by
  unfold havA
  simp

lemma havA_symm (lat1 lng1 lat2 lng2 : ℝ) :
    havA lat2 lng2 lat1 lng1 = havA lat1 lng1 lat2 lng2 := by
  unfold havA
  rw [show (lat1 - lat2) * Real.pi / 180 / 2 = -((lat2 - lat1) * Real.pi / 180 / 2) by ring,
    show (lng1 - lng2) * Real.pi / 180 / 2 = -((lng2 - lng1) * Real.pi / 180 / 2) by ring,
    Real.sin_neg, Real.sin_neg]
  ring

/-- The Haversine distance of a point to itself is zero. -/
lemma haversineDistance_self (lat lng : ℝ) : haversineDistance lat lng lat lng = 0 := by
  unfold haversineDistance
  rw [havA_self]
  norm_num [atan2_zero_one]

/-- The Haversine distance is non-negative for all real inputs. -/
lemma haversineDistance_nonneg (lat1 lng1 lat2 lng2 : ℝ) :
    0 ≤ haversineDistance lat1 lng1 lat2 lng2 := by
  unfold haversineDistance
  have h := atan2_nonneg (Real.sqrt_nonneg (havA lat1 lng1 lat2 lng2))
    (Real.sqrt_nonneg (1 - havA lat1 lng1 lat2 lng2))
  positivity

/-- The Haversine distance is symmetric in its two points. -/
lemma haversineDistance_symm (lat1 lng1 lat2 lng2 : ℝ) :
    haversineDistance lat1 lng1 lat2 lng2 = haversineDistance lat2 lng2 lat1 lng1 := by
  unfold haversineDistance
  rw [havA_symm]

lemma statusForward_refl (s : Status) : statusForward s s := Or.inl rfl

lemma find?_updateById_of_uniq (l : List Assignment) (p : Assignment → Bool) (a a' : Assignment) :
    l.find? p = some a → (∀ x ∈ l, x.id = a.id → x = a) → a'.id = a.id → p a' = true →
    (updateById l a.id a').find? p = some a' := by
  induction l with
  | nil => intro hfind _ _ _; simp at hfind
  | cons x t ih =>
    intro hfind huniq hid hp
    have hpa : p a = true := List.find?_some hfind
    cases hpx : p x with
    | true =>
      rw [List.find?_cons_of_pos _ hpx] at hfind
      have hxa : x = a := by injection hfind
      unfold updateById
      simp only [List.map_cons]
      rw [if_pos (by rw [hxa])]
      exact List.find?_cons_of_pos _ hp
    | false =>
      rw [List.find?_cons_of_neg _ (by simp [hpx])] at hfind
      have hxid : ¬ x.id = a.id := by
        intro h
        have := huniq x (List.mem_cons_self x t) h
        rw [this] at hpx
        rw [hpa] at hpx
        simp at hpx
      unfold updateById
      simp only [List.map_cons]
      rw [if_neg hxid]
      rw [List.find?_cons_of_neg _ (by simp [hpx])]
      exact ih hfind (fun y hy h => huniq y (List.mem_cons_of_mem x hy) h) hid hp

lemma find?_id_updateById (l : List Assignment) (a a' : Assignment) :
    a ∈ l → a'.id = a.id →
    (updateById l a.id a').find? (fun x => decide (x.id = a.id)) = some a' := by
  induction l with
  | nil => intro ha _; cases ha
  | cons x t ih =>
    intro ha hid
    unfold updateById
    simp only [List.map_cons]
    by_cases hx : x.id = a.id
    · rw [if_pos hx]
      exact List.find?_cons_of_pos _ (by simp [hid])
    · rw [if_neg hx]
      have hat : a ∈ t := by
        rcases List.mem_cons.mp ha with h | h
        · exact absurd (h ▸ rfl : x.id = a.id) hx
        · exact h
      rw [List.find?_cons_of_neg _ (by simp [hx])]
      exact ih hat hid

lemma uniq_updateById (l : List Assignment) (a a' : Assignment) :
    (∀ x ∈ l, x.id = a.id → x = a) → a'.id = a.id →
    ∀ x ∈ updateById l a.id a', x.id = a.id → x = a' := by
  intro huniq hid x hx hxid
  unfold updateById at hx
  rcases List.mem_map.mp hx with ⟨y, hy, hyx⟩
  by_cases h : y.id = a.id
  · rw [if_pos h] at hyx
    exact hyx.symm
  · rw [if_neg h] at hyx
    rw [← hyx] at hxid
    exact absurd hxid h

lemma forall₂_updateById (l : List Assignment) (a a' : Assignment)
    (R : Assignment → Assignment → Prop) :
    (∀ x ∈ l, x.id = a.id → x = a) → (∀ x ∈ l, R x x) → R a a' →
    List.Forall₂ R l (updateById l a.id a') := by
  induction l with
  | nil => intro _ _ _; exact List.Forall₂.nil
  | cons x t ih =>
    intro huniq hrefl hstep
    unfold updateById
    simp only [List.map_cons]
    by_cases h : x.id = a.id
    · rw [if_pos h]
      have hxa : x = a := huniq x (List.mem_cons_self x t) h
      exact List.Forall₂.cons (hxa ▸ hstep)
        (ih (fun y hy hyid => huniq y (List.mem_cons_of_mem x hy) hyid)
          (fun y hy => hrefl y (List.mem_cons_of_mem x hy)) hstep)
    · rw [if_neg h]
      exact List.Forall₂.cons (hrefl x (List.mem_cons_self x t))
        (ih (fun y hy hyid => huniq y (List.mem_cons_of_mem x hy) hyid)
          (fun y hy => hrefl y (List.mem_cons_of_mem x hy)) hstep)

lemma uniq_of_nodup_ids (l : List Assignment)
    (h : (l.map (fun a => a.id)).Nodup) (a : Assignment) (ha : a ∈ l) :
    ∀ x ∈ l, x.id = a.id → x = a :=
  fun x hx hid => List.inj_on_of_nodup_map h hx ha hid

lemma scanQRCode_success (db : DB) (asg : Assignment) (route : Route) (c : Checkpoint) :
    validLatLng (c.lat, c.lng) = true →
    db.checkpoints.find? (cpPred c.qrCode) = some c →
    db.assignments.find? (scanAsgPred asg.id asg.userId) = some asg →
    db.routes.find? (fun r => decide (r.id = asg.routeId)) = some route →
    c.id ∈ route.checkpoints →
    c.id ∉ asg.completedCheckpoints →
    scanQRCode db (mkScanRequest asg.userId asg.id c) =
      (ScanOutcome.ok (scanStep db.now asg c route).status
          (asg.completedCheckpoints ++ [c.id]).length route.checkpoints.length,
        { db with
          scans := db.scans ++
            [{ userId := asg.userId
               checkpointId := c.id
               routeAssignmentId := asg.id
               userLatLong := (c.lat, c.lng)
               distance := roundJS (haversineDistance (c.lat : ℝ) (c.lng : ℝ) (c.lat : ℝ) (c.lng : ℝ))
               notes := none
               isValid := true }]
          assignments := updateById db.assignments asg.id (scanStep db.now asg c route) }) := by
  intro hv hcp hasg hr hmem hnot
  unfold scanQRCode mkScanRequest
  simp only [hv, if_true, hcp, hasg, hr, scanStep, haversineDistance_self]
  rw [if_pos (by positivity : (0 : ℝ) ≤ (effectiveScanRadius c : ℝ))]
  simp [hmem, hnot, updateById]

lemma runScans_completes :
    ∀ (cps : List Checkpoint) (db : DB) (asg : Assignment) (route : Route),
    cps ≠ [] →
    db.assignments.find? (scanAsgPred asg.id asg.userId) = some asg →
    (∀ x ∈ db.assignments, x.id = asg.id → x = asg) →
    db.routes.find? (fun r => decide (r.id = asg.routeId)) = some route →
    (∀ c ∈ cps, db.checkpoints.find? (cpPred c.qrCode) = some c) →
    (∀ c ∈ cps, validLatLng (c.lat, c.lng) = true) →
    List.Perm (asg.completedCheckpoints ++ cps.map (fun c => c.id)) route.checkpoints →
    (asg.completedCheckpoints ++ cps.map (fun c => c.id)).Nodup →
    ∃ asg',
      (runScans db (cps.map (fun c => mkScanRequest asg.userId asg.id c))).assignments.find?
          (fun x => decide (x.id = asg.id)) = some asg' ∧
      asg'.status = Status.completed ∧ asg'.endDate.isSome = true ∧
      asg'.completedCheckpoints = asg.completedCheckpoints ++ cps.map (fun c => c.id) := by
  intro cps
  induction cps with
  | nil => intro db asg route hne _ _ _ _ _ _ _; exact absurd rfl hne
  | cons c cs ih =>
    intro db asg route _ hasg huniq hr hcps hv hperm hnodup
    have hmemr : c.id ∈ route.checkpoints := by
      refine hperm.mem_iff.mp ?_
      simp
    have hnotdone : c.id ∉ asg.completedCheckpoints := by
      intro hin
      exact (List.disjoint_of_nodup_append hnodup) hin (by simp)
    have hstep := scanQRCode_success db asg route c (hv c (List.mem_cons_self c cs))
      (hcps c (List.mem_cons_self c cs)) hasg hr hmemr hnotdone
    have hpa := List.find?_some hasg
    simp only [scanAsgPred, Bool.and_eq_true, decide_eq_true_eq] at hpa
    have hactive : asg.isActive = true := hpa.1.2
    have hrun : runScans db ((c :: cs).map (fun x => mkScanRequest asg.userId asg.id x)) =
        runScans ((scanQRCode db (mkScanRequest asg.userId asg.id c)).2)
          (cs.map (fun x => mkScanRequest asg.userId asg.id x)) := by
      simp [runScans]
    by_cases hcs : cs = []
    · subst hcs
      have hlen : asg.completedCheckpoints.length + 1 = route.checkpoints.length := by
        have := hperm.length_eq
        simpa using this
      refine ⟨scanStep db.now asg c route, ?_, ?_, ?_, ?_⟩
      · rw [hrun, hstep]
        simp only [runScans, List.map_nil, List.foldl_nil]
        exact find?_id_updateById db.assignments asg (scanStep db.now asg c route)
          (List.mem_of_find?_eq_some hasg) rfl
      · simp [scanStep, hlen]
      · simp [scanStep, hlen]
      · simp [scanStep]
    · have hlcs : cs.length ≠ 0 := by
        intro h
        exact hcs (List.length_eq_zero.mp h)
      have hlen : ¬ asg.completedCheckpoints.length + 1 = route.checkpoints.length := by
        have hL := hperm.length_eq
        simp at hL
        omega
      have hst₁ : (scanStep db.now asg c route).status = Status.in_progress := by
        simp [scanStep, hlen]
      have hasg₁ : ((scanQRCode db (mkScanRequest asg.userId asg.id c)).2).assignments.find?
          (scanAsgPred asg.id asg.userId) = some (scanStep db.now asg c route) := by
        rw [hstep]
        exact find?_updateById_of_uniq db.assignments (scanAsgPred asg.id asg.userId) asg
          (scanStep db.now asg c route) hasg huniq rfl
          (by simp [scanAsgPred, scanStep, hlen, hactive])
      have huniq₁ := uniq_updateById db.assignments asg (scanStep db.now asg c route) huniq rfl
      have hih := ih ((scanQRCode db (mkScanRequest asg.userId asg.id c)).2)
        (scanStep db.now asg c route) route hcs hasg₁
        (by rw [hstep]; exact huniq₁)
        (by rw [hstep]; exact hr)
        (by rw [hstep]; intro x hx; exact hcps x (List.mem_cons_of_mem c hx))
        (fun x hx => hv x (List.mem_cons_of_mem c hx))
        (by simpa [scanStep, List.append_assoc] using hperm)
        (by simpa [scanStep, List.append_assoc] using hnodup)
      rcases hih with ⟨asg'', hfind, hst, hend, hcc⟩
      refine ⟨asg'', ?_, hst, hend, ?_⟩
      · rw [hrun]
        exact hfind
      · rw [hcc]
        simp [scanStep, List.append_assoc]

lemma scanQRCode_cases (db : DB) (req : ScanRequest) :
    (scanQRCode db req).2 = db ∨ ∃ s a b, (scanQRCode db req).1 = ScanOutcome.ok s a b := by
  unfold scanQRCode
  dsimp only
  repeat' split
  all_goals first
    | (left; rfl)
    | (right; exact ⟨_, _, _, rfl⟩)

/-- Claim C8: the Haversine distance function (Earth radius 6,371,000 m) is
non-negative, and for all coordinate pairs within valid bounds
(−90 ≤ lat ≤ 90, −180 ≤ lng ≤ 180) it satisfies distance(p,p) = 0 and
distance(a,b) = distance(b,a). -/
theorem haversine_nonneg_self_symm :
    (∀ lat1 lng1 lat2 lng2 : ℝ, 0 ≤ haversineDistance lat1 lng1 lat2 lng2) ∧
    (∀ lat1 lng1 lat2 lng2 : ℝ,
      -90 ≤ lat1 → lat1 ≤ 90 → -180 ≤ lng1 → lng1 ≤ 180 →
      -90 ≤ lat2 → lat2 ≤ 90 → -180 ≤ lng2 → lng2 ≤ 180 →
      haversineDistance lat1 lng1 lat1 lng1 = 0 ∧
      haversineDistance lat1 lng1 lat2 lng2 = haversineDistance lat2 lng2 lat1 lng1) := by
  refine ⟨fun a b c d => haversineDistance_nonneg a b c d, ?_⟩
  intro lat1 lng1 lat2 lng2 _ _ _ _ _ _ _ _
  exact ⟨haversineDistance_self lat1 lng1, haversineDistance_symm lat1 lng1 lat2 lng2⟩

/-- Witness for C8 at the concrete points (10,20) and (30,40). -/
theorem haversine_nonneg_self_symm_witness :
    0 ≤ haversineDistance 10 20 30 40 ∧
    haversineDistance 10 20 10 20 = 0 ∧
    haversineDistance 10 20 30 40 = haversineDistance 30 40 10 20 :=
  ⟨haversine_nonneg_self_symm.1 10 20 30 40,
    haversine_nonneg_self_symm.2 10 20 30 40 (by norm_num) (by norm_num) (by norm_num)
      (by norm_num) (by norm_num) (by norm_num) (by norm_num) (by norm_num)⟩

/-- Claim C2: for a scan request that passes position, QR, and
checkpoint-existence validation, the scan fails with OutOfRange exactly when
the Haversine distance from the user position to the checkpoint center is
strictly greater than the checkpoint's configured scan radius (equality is
accepted), and an OutOfRange failure reports the (rounded) computed distance
and the required radius. -/
theorem scan_outOfRange_iff (db : DB) (req : ScanRequest) (pos : ℚ × ℚ) (qr : QRInfo)
    (qid : String) (cp : Checkpoint) :
    req.userLatLong = some pos → validLatLng pos = true →
    req.qrData = some qr → qr.id = some qid → qr.ty = some "checkpoint" →
    db.checkpoints.find? (cpPred qid) = some cp →
    (((scanQRCode db req).1 =
        ScanOutcome.outOfRange
          (roundJS (haversineDistance (pos.1 : ℝ) (pos.2 : ℝ) (cp.lat : ℝ) (cp.lng : ℝ)))
          (effectiveScanRadius cp)) ↔
      ((effectiveScanRadius cp : ℝ) <
        haversineDistance (pos.1 : ℝ) (pos.2 : ℝ) (cp.lat : ℝ) (cp.lng : ℝ))) ∧
    (∀ d r, (scanQRCode db req).1 = ScanOutcome.outOfRange d r →
      d = roundJS (haversineDistance (pos.1 : ℝ) (pos.2 : ℝ) (cp.lat : ℝ) (cp.lng : ℝ)) ∧
      r = effectiveScanRadius cp) := by
  intro hpos hv hqr hqid hty hcp
  unfold scanQRCode
  rw [hpos]
  dsimp only
  rw [hqr]
  dsimp only
  rw [hqid, hty]
  dsimp only
  rw [hv]
  simp only [if_true]
  rw [hcp]
  dsimp only
  by_cases h : haversineDistance (pos.1 : ℝ) (pos.2 : ℝ) (cp.lat : ℝ) (cp.lng : ℝ) ≤
      (effectiveScanRadius cp : ℝ)
  · rw [if_pos h]
    constructor
    · constructor
      · intro hout
        exfalso
        repeat' split at hout
        all_goals simp at hout
      · intro hlt
        exact absurd hlt (not_lt.mpr h)
    · intro d r hout
      exfalso
      repeat' split at hout
      all_goals simp at hout
  · rw [if_neg h]
    constructor
    · constructor
      · intro _
        exact not_le.mp h
      · intro _
        rfl
    · intro d r hout
      injection hout with h1 h2
      exact ⟨h1.symm, h2.symm⟩

/-- Witness for C2: a concrete request that passes position, QR and
checkpoint-existence validation against the fixture database. -/
theorem scan_outOfRange_iff_witness :
    ((scanQRCode wDb1 (mkScanRequest 7 100 wCp1)).1 =
        ScanOutcome.outOfRange
          (roundJS (haversineDistance (wCp1.lat : ℝ) (wCp1.lng : ℝ) (wCp1.lat : ℝ) (wCp1.lng : ℝ)))
          (effectiveScanRadius wCp1)) ↔
      ((effectiveScanRadius wCp1 : ℝ) <
        haversineDistance (wCp1.lat : ℝ) (wCp1.lng : ℝ) (wCp1.lat : ℝ) (wCp1.lng : ℝ)) :=
  (scan_outOfRange_iff wDb1 (mkScanRequest 7 100 wCp1) (wCp1.lat, wCp1.lng)
    ⟨some "QA", some "checkpoint"⟩ "QA" wCp1 rfl (by decide) rfl rfl rfl (by decide)).1

/-- Claim C4: every failing scan request leaves the database untouched — no
CheckpointScan row, no assignment mutation; in particular re-scanning an
already-completed checkpoint fails AlreadyScanned with no state change. -/
theorem scan_failure_no_writes :
    (∀ (db : DB) (req : ScanRequest),
      isScanError (scanQRCode db req).1 = true → (scanQRCode db req).2 = db) ∧
    (∀ (db : DB) (req : ScanRequest) (pos : ℚ × ℚ) (qr : QRInfo) (qid : String)
        (cp : Checkpoint) (asg : Assignment) (route : Route),
      req.userLatLong = some pos → validLatLng pos = true →
      req.qrData = some qr → qr.id = some qid → qr.ty = some "checkpoint" →
      db.checkpoints.find? (cpPred qid) = some cp →
      haversineDistance (pos.1 : ℝ) (pos.2 : ℝ) (cp.lat : ℝ) (cp.lng : ℝ) ≤
        (effectiveScanRadius cp : ℝ) →
      db.assignments.find? (scanAsgPred req.assignmentId req.userId) = some asg →
      db.routes.find? (fun r => decide (r.id = asg.routeId)) = some route →
      cp.id ∈ route.checkpoints →
      cp.id ∈ asg.completedCheckpoints →
      scanQRCode db req = (ScanOutcome.alreadyScanned, db)) := by
  constructor
  · intro db req h
    rcases scanQRCode_cases db req with h2 | ⟨s, a, b, h2⟩
    · exact h2
    · rw [h2] at h
      simp [isScanError] at h
  · intro db req pos qr qid cp asg route hpos hv hqr hqid hty hcp hdist hasg hroute hmem hdone
    unfold scanQRCode
    rw [hpos]
    dsimp only
    rw [hqr]
    dsimp only
    rw [hqid, hty]
    dsimp only
    rw [hv]
    simp only [if_true]
    rw [hcp]
    dsimp only
    rw [if_pos hdist, hasg]
    dsimp only
    rw [hroute]
    dsimp only
    rw [if_pos hmem, if_pos hdone]

/-- Witness for C4: re-scanning the already-scanned checkpoint 1 in the
fixture database fails AlreadyScanned and changes nothing. -/
theorem scan_failure_no_writes_witness :
    scanQRCode wDb2 (mkScanRequest 7 100 wCp1) = (ScanOutcome.alreadyScanned, wDb2) :=
  scan_failure_no_writes.2 wDb2 (mkScanRequest 7 100 wCp1) (wCp1.lat, wCp1.lng)
    ⟨some "QA", some "checkpoint"⟩ "QA" wCp1 wAsgDone1 wRoute rfl (by decide) rfl rfl rfl
    (by decide) (by norm_num [haversineDistance_self]) (by decide) (by decide) (by decide)
    (by decide)

/-- Claim C1: for an in_progress assignment of a duplicate-free route with
checkpoint list L and nothing scanned yet, successively scanning the
checkpoints of L in any order (each scan succeeding) appends each checkpoint
and ends, once the completed set equals L, with the assignment completed and
endDate set; the terminal state is the same for every scan order: status
completed and completedCheckpoints a permutation (equal as a set) of L. -/
theorem scan_order_independence (db : DB) (asg : Assignment) (route : Route)
    (cps : List Checkpoint) :
    cps ≠ [] →
    db.assignments.find? (scanAsgPred asg.id asg.userId) = some asg →
    (∀ x ∈ db.assignments, x.id = asg.id → x = asg) →
    db.routes.find? (fun r => decide (r.id = asg.routeId)) = some route →
    (∀ c ∈ cps, db.checkpoints.find? (cpPred c.qrCode) = some c) →
    (∀ c ∈ cps, validLatLng (c.lat, c.lng) = true) →
    asg.completedCheckpoints = [] →
    route.checkpoints.Nodup →
    List.Perm (cps.map (fun c => c.id)) route.checkpoints →
    ∃ asg',
      (runScans db (cps.map (fun c => mkScanRequest asg.userId asg.id c))).assignments.find?
          (fun x => decide (x.id = asg.id)) = some asg' ∧
      asg'.status = Status.completed ∧ asg'.endDate.isSome = true ∧
      List.Perm asg'.completedCheckpoints route.checkpoints := by
  intro hne hasg huniq hr hcps hv hcc hLnodup hperm
  have hperm' : List.Perm (asg.completedCheckpoints ++ cps.map (fun c => c.id))
      route.checkpoints := by
    rw [hcc]
    simpa using hperm
  have hnodup : (asg.completedCheckpoints ++ cps.map (fun c => c.id)).Nodup := by
    rw [hcc]
    simpa using (hperm.nodup_iff).mpr hLnodup
  rcases runScans_completes cps db asg route hne hasg huniq hr hcps hv hperm' hnodup with
    ⟨asg', hfind, hst, hend, hcc'⟩
  refine ⟨asg', hfind, hst, hend, ?_⟩
  rw [hcc', hcc]
  simpa using hperm

/-- Witness for C1: scanning the fixture route's checkpoints in the order
C, A, B completes the fixture assignment. -/
theorem scan_order_independence_witness :
    ∃ asg',
      (runScans wDb1
          ([wCp3, wCp1, wCp2].map (fun c => mkScanRequest wAsg.userId wAsg.id c))).assignments.find?
          (fun x => decide (x.id = wAsg.id)) = some asg' ∧
      asg'.status = Status.completed ∧ asg'.endDate.isSome = true ∧
      List.Perm asg'.completedCheckpoints wRoute.checkpoints :=
  scan_order_independence wDb1 wAsg wRoute [wCp3, wCp1, wCp2] (by decide) (by decide)
    (by decide) (by decide) (by decide) (by decide) rfl (by decide) (by decide)

lemma scanQRCode_write_shape (db : DB) (req : ScanRequest) :
    (scanQRCode db req).2.assignments = db.assignments ∨
    ∃ asg cp route,
      db.assignments.find? (scanAsgPred req.assignmentId req.userId) = some asg ∧
      (scanQRCode db req).2.assignments =
        updateById db.assignments asg.id (scanStep db.now asg cp route) := by
  unfold scanQRCode
  dsimp only
  repeat' split
  all_goals first
    | (left; rfl)
    | (right; exact ⟨_, _, _, by assumption, rfl⟩)

/-- Counterexample to C3 as stated: `updateAssignment` accepts `status` among
its allowed fields without any transition validation, so a payload carrying
`status: 'assigned'` moves a completed assignment backward to assigned. -/
theorem update_status_backward_counterexample :
    (getById wDb3 1).map (fun a => a.status) = some Status.completed ∧
    (getById (updateAssignment wDb3 1 wPayloadAssigned).2 1).map (fun a => a.status) =
      some Status.assigned := by
  decide

/-- Claim C3 (amended): with unique assignment ids, assignRoute, startRoute,
scan recording and cancelAssignment only move status forward along
assigned → in_progress → (completed | cancelled) and never touch a completed
or cancelled assignment; completeRoute never changes a completed assignment
but does transition a cancelled one to completed; updateAssignment is
excluded, since it writes whatever status the payload supplies with no
transition validation. -/
theorem status_monotonic_amended (db : DB)
    (hids : (db.assignments.map (fun a => a.id)).Nodup) :
    (∀ uid rid ps,
      (assignRoute db uid rid ps).2.assignments = db.assignments ∨
      ∃ a, (assignRoute db uid rid ps).2.assignments = db.assignments ++ [a] ∧
        a.status = Status.assigned) ∧
    (∀ i notes, List.Forall₂ (fun x x' => statusForward x.status x'.status)
      db.assignments (startRoute db i notes).2.assignments) ∧
    (∀ req, List.Forall₂ (fun x x' => statusForward x.status x'.status)
      db.assignments (scanQRCode db req).2.assignments) ∧
    (∀ i notes reason, List.Forall₂ (fun x x' => statusForward x.status x'.status)
      db.assignments (cancelAssignment db i notes reason).2.assignments) ∧
    (∀ i force notes, List.Forall₂ (fun x x' =>
        (x.status = Status.completed → x' = x) ∧
        (statusForward x.status x'.status ∨
          (x.status = Status.cancelled ∧ x'.status = Status.completed)))
      db.assignments (completeRoute db i force notes).2.assignments) := by
  refine ⟨?_, ?_, ?_, ?_, ?_⟩
  · intro uid rid ps
    unfold assignRoute
    dsimp only
    repeat' split
    all_goals first
      | (left; rfl)
      | (right; exact ⟨_, rfl, rfl⟩)
  · intro i notes
    unfold startRoute
    rcases heq : db.assignments.find?
        (fun a => decide (a.id = i) && a.isActive && decide (a.status = Status.assigned)) with
      _ | asg
    · simp only [heq]
      exact List.forall₂_same.mpr (fun x _ => statusForward_refl x.status)
    · simp only [heq]
      apply forall₂_updateById
      · exact uniq_of_nodup_ids db.assignments hids asg (List.mem_of_find?_eq_some heq)
      · exact fun x _ => statusForward_refl x.status
      · have hp := List.find?_some heq
        simp only [Bool.and_eq_true, decide_eq_true_eq] at hp
        exact Or.inr (Or.inl ⟨hp.2, by simp⟩)
  · intro req
    rcases scanQRCode_write_shape db req with h | ⟨asg, cp, route, hasg, hshape⟩
    · rw [h]
      exact List.forall₂_same.mpr (fun x _ => statusForward_refl x.status)
    · rw [hshape]
      apply forall₂_updateById
      · exact uniq_of_nodup_ids db.assignments hids asg (List.mem_of_find?_eq_some hasg)
      · exact fun x _ => statusForward_refl x.status
      · have hp := List.find?_some hasg
        simp only [scanAsgPred, Bool.and_eq_true, decide_eq_true_eq] at hp
        by_cases hc : asg.completedCheckpoints.length + 1 = route.checkpoints.length
        · refine Or.inr (Or.inr ⟨hp.2, Or.inl ?_⟩)
          simp [scanStep, hc]
        · refine Or.inl ?_
          rw [hp.2]
          simp [scanStep, hc]
  · intro i notes reason
    unfold cancelAssignment
    rcases heq : db.assignments.find? (fun a => decide (a.id = i)) with _ | asg
    · simp only [heq]
      exact List.forall₂_same.mpr (fun x _ => statusForward_refl x.status)
    · simp only [heq]
      split_ifs with h1 h2
      · apply forall₂_updateById
        · exact uniq_of_nodup_ids db.assignments hids asg (List.mem_of_find?_eq_some heq)
        · exact fun x _ => statusForward_refl x.status
        · show statusForward asg.status Status.cancelled
          simp only [isActiveStatus, Bool.or_eq_true, decide_eq_true_eq] at h2
          rcases h2 with h | h
          · exact Or.inr (Or.inl ⟨h, by decide⟩)
          · exact Or.inr (Or.inr ⟨h, Or.inr rfl⟩)
      · exact List.forall₂_same.mpr (fun x _ => statusForward_refl x.status)
      · exact List.forall₂_same.mpr (fun x _ => statusForward_refl x.status)
  · intro i force notes
    unfold completeRoute
    rcases heq : db.assignments.find? (fun a => decide (a.id = i) && a.isActive) with _ | asg
    · simp only [heq]
      exact List.forall₂_same.mpr
        (fun x _ => ⟨fun _ => rfl, Or.inl (statusForward_refl x.status)⟩)
    · simp only [heq]
      split_ifs with h1 h2
      · exact List.forall₂_same.mpr
          (fun x _ => ⟨fun _ => rfl, Or.inl (statusForward_refl x.status)⟩)
      · exact List.forall₂_same.mpr
          (fun x _ => ⟨fun _ => rfl, Or.inl (statusForward_refl x.status)⟩)
      · apply forall₂_updateById
        · exact uniq_of_nodup_ids db.assignments hids asg (List.mem_of_find?_eq_some heq)
        · exact fun x _ => ⟨fun _ => rfl, Or.inl (statusForward_refl x.status)⟩
        · refine ⟨fun hcomp => absurd hcomp h1, ?_⟩
          show statusForward asg.status Status.completed ∨
            (asg.status = Status.cancelled ∧ Status.completed = Status.completed)
          cases hs : asg.status with
          | assigned => exact Or.inl (Or.inr (Or.inl ⟨rfl, by decide⟩))
          | in_progress => exact Or.inl (Or.inr (Or.inr ⟨rfl, Or.inl rfl⟩))
          | completed => exact absurd hs h1
          | cancelled => exact Or.inr ⟨rfl, rfl⟩

/-- Witness for C3 (amended), startRoute conjunct at the fixture database. -/
theorem status_monotonic_amended_witness :
    List.Forall₂ (fun x x' => statusForward x.status x'.status)
      wDb1.assignments (startRoute wDb1 100 none).2.assignments :=
  (status_monotonic_amended wDb1 (by decide)).2.1 100 none

/-- Counterexample to C5 as stated: user 1 already actively holds route 2,
yet assignRoute answers RouteAlreadyAssigned — RULE 1 runs first and matches
the requester's own assignment — not DuplicateUserRouteAssignment. -/
theorem assignRoute_self_conflict_counterexample :
    (assignRoute wDb5 1 2 none).1 = AssignOutcome.routeAlreadyAssigned 3 1 Status.assigned ∧
    (assignRoute wDb5 1 2 none).1 ≠ AssignOutcome.duplicateUserRoute 3 := by
  decide

/-- Claim C5 (amended): whenever any active assignment holds the requested
route — including one held by the requesting user — assignRoute fails
RouteAlreadyAssigned reporting that assignment's id, holder and status, and
no call of assignRoute can ever return DuplicateUserRouteAssignment: its
check is subsumed by the route-level check that runs first. -/
theorem assignRoute_conflict_precedence :
    (∀ (db : DB) (uid rid : Nat) (ps : Option Nat) (u holder : User) (ex : Assignment),
      db.users.find? (fun x => decide (x.id = uid)) = some u →
      (∃ route, db.routes.find? (fun r => decide (r.id = rid)) = some route ∧
        route.isActive = true) →
      db.assignments.find? (routeConflictPred rid) = some ex →
      db.users.find? (fun x => decide (x.id = ex.userId)) = some holder →
      (assignRoute db uid rid ps).1 =
        AssignOutcome.routeAlreadyAssigned ex.id ex.userId ex.status) ∧
    (∀ (db : DB) (uid rid : Nat) (ps : Option Nat) (cid : Nat),
      (assignRoute db uid rid ps).1 ≠ AssignOutcome.duplicateUserRoute cid) := by
  constructor
  · intro db uid rid ps u holder ex hu hroute hex hholder
    rcases hroute with ⟨route, hr, hact⟩
    unfold assignRoute
    simp only [hu, hr]
    rw [if_pos hact]
    simp only [hex, hholder]
  · intro db uid rid ps cid
    unfold assignRoute
    rcases h1 : db.users.find? (fun x => decide (x.id = uid)) with _ | u <;> simp only [h1]
    · simp
    · rcases h2 : db.routes.find? (fun r => decide (r.id = rid)) with _ | route <;>
        simp only [h2]
      · simp
      · by_cases h3 : route.isActive = true
        · rw [if_pos h3]
          rcases h4 : db.assignments.find? (routeConflictPred rid) with _ | ex <;>
            simp only [h4]
          · rcases h5 : db.assignments.find? (userRoutePred uid rid) with _ | conflict <;>
              simp only [h5]
            · split_ifs with h6 <;> simp
            · intro _
              have hmem := List.mem_of_find?_eq_some h5
              have hp := List.find?_some h5
              simp only [userRoutePred, Bool.and_eq_true, decide_eq_true_eq] at hp
              refine List.find?_eq_none.mp h4 conflict hmem ?_
              simp only [routeConflictPred, Bool.and_eq_true, decide_eq_true_eq]
              exact ⟨⟨hp.1.1.2, hp.1.2⟩, hp.2⟩
          · rcases h5 : db.users.find? (fun x => decide (x.id = ex.userId)) with _ | holder <;>
              simp only [h5] <;> simp
        · rw [if_neg h3]
          simp

/-- Witness for C5 (amended) at the fixture database where the requesting
user's own assignment holds the route. -/
theorem assignRoute_conflict_precedence_witness :
    (assignRoute wDb5 1 2 none).1 =
      AssignOutcome.routeAlreadyAssigned wAsgHeld.id wAsgHeld.userId wAsgHeld.status :=
  assignRoute_conflict_precedence.1 wDb5 1 2 none wUser1 wUser1 wAsgHeld (by decide)
    ⟨wRoute2, by decide, rfl⟩ (by decide) (by decide)

/-- Claim C6: completeRoute fails AlreadyCompleted on a completed assignment;
with fewer completed checkpoints than the route total and no forceComplete it
fails IncompleteCheckpoints reporting the remaining count; otherwise it
transitions the assignment to completed and sets endDate. -/
theorem completeRoute_spec (db : DB) (i : Nat) (force : Bool) (notes : Option String)
    (asg : Assignment) (route : Route) :
    db.assignments.find? (fun a => decide (a.id = i) && a.isActive) = some asg →
    db.routes.find? (fun r => decide (r.id = asg.routeId)) = some route →
    (asg.status = Status.completed →
      completeRoute db i force notes = (CompleteOutcome.alreadyCompleted, db)) ∧
    (asg.status ≠ Status.completed →
      asg.completedCheckpoints.length < route.checkpoints.length → force = false →
      completeRoute db i force notes =
        (CompleteOutcome.incompleteCheckpoints route.checkpoints.length
          asg.completedCheckpoints.length
          (route.checkpoints.length - asg.completedCheckpoints.length), db)) ∧
    (asg.status ≠ Status.completed →
      (route.checkpoints.length ≤ asg.completedCheckpoints.length ∨ force = true) →
      (completeRoute db i force notes).1 = CompleteOutcome.routeCompleted force ∧
      ∃ asg', getById (completeRoute db i force notes).2 i = some asg' ∧
        asg'.status = Status.completed ∧ asg'.endDate = some db.now) := by
  intro hfind hroute
  have hi : asg.id = i := by
    have hp := List.find?_some hfind
    simp only [Bool.and_eq_true, decide_eq_true_eq] at hp
    exact hp.1
  refine ⟨?_, ?_, ?_⟩
  · intro hst
    unfold completeRoute
    simp only [hfind]
    rw [if_pos hst]
  · intro hst hlt hforce
    unfold completeRoute
    simp only [hfind, hroute, Option.map_some', Option.getD_some]
    rw [if_neg hst]
    rw [if_pos ⟨hlt, hforce⟩]
  · intro hst hge
    unfold completeRoute
    simp only [hfind, hroute, Option.map_some', Option.getD_some]
    rw [if_neg hst]
    rw [if_neg (by
      rintro ⟨hl, hf⟩
      rcases hge with h | h
      · omega
      · rw [h] at hf
        cases hf)]
    refine ⟨by trivial, ?_⟩
    refine ⟨{ asg with
      status := Status.completed
      endDate := some db.now
      notes := notes.getD "Route completed" }, ?_, rfl, rfl⟩
    unfold getById
    dsimp only
    rw [← hi]
    exact find?_id_updateById db.assignments asg _ (List.mem_of_find?_eq_some hfind) rfl

/-- Witness for C6: at 2 of 3 checkpoints, forceComplete=false reports
remaining 1; forceComplete=true completes. -/
theorem completeRoute_spec_witness :
    completeRoute wDb6 100 false none =
      (CompleteOutcome.incompleteCheckpoints 3 2 1, wDb6) ∧
    (completeRoute wDb6 100 true none).1 = CompleteOutcome.routeCompleted true :=
  ⟨(completeRoute_spec wDb6 100 false none wAsgTwoDone wRoute (by decide)
      (by decide)).2.1 (by decide) (by decide) rfl,
    ((completeRoute_spec wDb6 100 true none wAsgTwoDone wRoute (by decide)
      (by decide)).2.2 (by decide) (Or.inr rfl)).1⟩

/-- Claim C7: startRoute succeeds only from status assigned — any assignment
with a different status makes it fail with the not-found / invalid-state
response — and on success it transitions to in_progress and overwrites
startDate with the current time. -/
theorem startRoute_spec (db : DB) (i : Nat) (notes : Option String) :
    ((∀ a ∈ db.assignments, a.id = i → a.status ≠ Status.assigned) →
      startRoute db i notes = (StartOutcome.notFoundOrNotAssigned, db)) ∧
    (∀ asg, db.assignments.find?
        (fun a => decide (a.id = i) && a.isActive && decide (a.status = Status.assigned)) =
          some asg →
      (startRoute db i notes).1 = StartOutcome.started ∧
      ∃ asg', getById (startRoute db i notes).2 i = some asg' ∧
        asg'.status = Status.in_progress ∧ asg'.startDate = some db.now) := by
  constructor
  · intro h
    unfold startRoute
    have hnone : db.assignments.find?
        (fun a => decide (a.id = i) && a.isActive && decide (a.status = Status.assigned)) =
          none := by
      apply List.find?_eq_none.mpr
      intro x hx
      simp only [Bool.and_eq_true, decide_eq_true_eq, not_and]
      intro hpair
      exact h x hx hpair.1
    simp only [hnone]
  · intro asg hfind
    have hi : asg.id = i := by
      have hp := List.find?_some hfind
      simp only [Bool.and_eq_true, decide_eq_true_eq] at hp
      exact hp.1.1
    unfold startRoute
    simp only [hfind]
    refine ⟨by trivial, ?_⟩
    refine ⟨{ asg with
      status := Status.in_progress
      startDate := some db.now
      notes := notes.getD "Route started" }, ?_, rfl, rfl⟩
    unfold getById
    dsimp only
    rw [← hi]
    exact find?_id_updateById db.assignments asg _ (List.mem_of_find?_eq_some hfind) rfl

/-- Witness for C7 at the fixture assigned assignment. -/
theorem startRoute_spec_witness :
    (startRoute wDb7 100 none).1 = StartOutcome.started ∧
    ∃ asg', getById (startRoute wDb7 100 none).2 100 = some asg' ∧
      asg'.status = Status.in_progress ∧ asg'.startDate = some wDb7.now :=
  (startRoute_spec wDb7 100 none).2 wAsgAssigned (by decide)

lemma assignRoute_of_checksPass (db : DB) (u r : Nat) (ps : Option Nat) :
    assignChecksPass db u r = true →
    assignRoute db u r ps =
      (AssignOutcome.created (freshId db.assignments), assignCreate db u r ps) := by
  intro h
  unfold assignChecksPass at h
  simp only [Bool.and_eq_true, decide_eq_true_eq] at h
  obtain ⟨⟨⟨⟨hu, hr⟩, h1⟩, h2⟩, h3⟩ := h
  unfold assignRoute
  rcases hu' : db.users.find? (fun x => decide (x.id = u)) with _ | u0
  · rw [hu'] at hu
    simp at hu
  · simp only [hu']
    rcases hr' : db.routes.find? (fun x => decide (x.id = r)) with _ | r0
    · rw [hr'] at hr
      simp at hr
    · simp only [hr']
      rw [hr'] at hr
      rw [if_pos hr]
      rw [Option.isNone_iff_eq_none] at h1 h2
      simp only [h1, h2]
      rw [if_neg (by omega)]
      rfl

/-- Claim C9 (code bug): `assignRoute` runs its conflict checks and its create
with no transaction, so when two requests for the same route interleave with
both check phases reading the pre-create snapshot, both creates succeed and
the route ends up held by two simultaneously active assignments — the claimed
"exactly one succeeds" atomicity does not hold in the code. -/
theorem assignRoute_race_both_succeed :
    assignChecksPass wDb9 1 7 = true ∧
    assignChecksPass wDb9 2 7 = true ∧
    ((assignCreate (assignCreate wDb9 1 7 none) 2 7 none).assignments.filter
      (routeConflictPred 7)).length = 2 := by
  decide

/-- Claim C10: updateAssignment writes only startDate, endDate, notes and
status; userId, routeId, policeStationId, completedCheckpoints and isActive
are unchanged on every row, whatever the payload supplies (including a
routeId, which is only conflict-checked, never written). -/
theorem updateAssignment_frame (db : DB) (i : Nat) (p : UpdatePayload)
    (hids : (db.assignments.map (fun a => a.id)).Nodup) :
    List.Forall₂ (fun x x' =>
        x'.userId = x.userId ∧ x'.routeId = x.routeId ∧
        x'.policeStationId = x.policeStationId ∧
        x'.completedCheckpoints = x.completedCheckpoints ∧ x'.isActive = x.isActive)
      db.assignments (updateAssignment db i p).2.assignments := by
  unfold updateAssignment
  rcases heq : db.assignments.find? (fun a => decide (a.id = i)) with _ | asg <;>
    simp only [heq]
  · exact List.forall₂_same.mpr (fun x _ => ⟨rfl, rfl, rfl, rfl, rfl⟩)
  · split_ifs with h1 h2
    · exact List.forall₂_same.mpr (fun x _ => ⟨rfl, rfl, rfl, rfl, rfl⟩)
    · apply forall₂_updateById
      · exact uniq_of_nodup_ids db.assignments hids asg (List.mem_of_find?_eq_some heq)
      · exact fun x _ => ⟨rfl, rfl, rfl, rfl, rfl⟩
      · exact ⟨rfl, rfl, rfl, rfl, rfl⟩
    · exact List.forall₂_same.mpr (fun x _ => ⟨rfl, rfl, rfl, rfl, rfl⟩)

/-- Witness for C10 at the fixture database, with the payload that tries to
set status. -/
theorem updateAssignment_frame_witness :
    List.Forall₂ (fun x x' =>
        x'.userId = x.userId ∧ x'.routeId = x.routeId ∧
        x'.policeStationId = x.policeStationId ∧
        x'.completedCheckpoints = x.completedCheckpoints ∧ x'.isActive = x.isActive)
      wDb3.assignments (updateAssignment wDb3 1 wPayloadAssigned).2.assignments :=
  updateAssignment_frame wDb3 1 wPayloadAssigned (by decide)

end SmartPatrol
